import Mathlib

/-!
Shallow embedding of `pkg/core/proxy/integrations/mysql/command/rowscols/binaryProtocolRowPacket.go`
(package `rowscols`): the MySQL binary-protocol result-set row decoder and encoder.

Modelling conventions:
* Go byte slices and Go strings are `List Nat` (each element intended `< 256`;
  Go strings are raw byte sequences).
* Go's multi-value returns `(value, n, err)` become small inductive result types.
  A Go runtime panic (out-of-range index or slice) is the distinguished
  constructor `oob`; the Go code under test performs unchecked indexing in
  several places, so this branch is genuinely reachable.
* Machine integers are `Nat` / `Int` with explicit wrap-around (`% 2 ^ w`,
  two's complement via `toSigned` / `intLE`).
* Go `float32` / `float64` values are represented by their IEEE-754 bit
  patterns (a `Nat`).  The Go numeric conversion `float32(u)` of a `uint32`
  (round to nearest, ties to even) is modelled bit-exactly by `f32bitsOfNat`;
  `binary.Write` of a float writes exactly its bit pattern little-endian.
* `fmt.Sprintf` / `fmt.Sscanf` are modelled only at the format strings the
  source uses (`%04d`, `%02d`, `%06d`, `%d` and literal `-`, `:`, space),
  with Go scanning semantics: verbs skip leading spaces, a width bounds the
  number of digits read, trailing unconsumed input is not an error.
-/

/- ## Byte-level helpers -/

/-- Little-endian value of a byte list: `binary.LittleEndian.UintN(b)`. -/
def leBytes (b : List Nat) : Nat :=
  b.foldr (fun byte acc => byte + 256 * acc) 0

/-- `w`-byte little-endian encoding of a natural number (low byte first);
this is what `binary.Write(buf, binary.LittleEndian, ...)` emits for an
unsigned `w`-byte integer. -/
def natLE : Nat → Nat → List Nat
  | 0, _ => []
  | w + 1, n => (n % 256) :: natLE w (n / 256)

/-- Two's-complement reinterpretation: Go's `intN(u)` of an unsigned value
`u < 2 ^ bits`. -/
def toSigned (bits : Nat) (u : Nat) : Int :=
  if u < 2 ^ (bits - 1) then (u : Int) else (u : Int) - 2 ^ bits

/-- `w`-byte little-endian encoding of a signed value (two's complement),
i.e. what `binary.Write` emits for an `intN`. -/
def intLE (w : Nat) (v : Int) : List Nat :=
  natLE w (v % ((2 : Int) ^ (8 * w))).toNat

/- ## Go float conversions, represented on IEEE-754 bit patterns -/

/-- Fuel-driven base-2 logarithm (structural recursion so that the kernel can
evaluate it): `log2fuel fuel n = ⌊log₂ n⌋` whenever `fuel ≥ n ≥ 1`. -/
def log2fuel : Nat → Nat → Nat
  | 0, _ => 0
  | fuel + 1, n => if n < 2 then 0 else log2fuel fuel (n / 2) + 1

/-- IEEE-754 binary32 bit pattern of the Go numeric conversion `float32(n)`
of an unsigned integer `n < 2 ^ 32` (round to nearest, ties to even). -/
def f32bitsOfNat (n : Nat) : Nat :=
  if n = 0 then 0
  else
    let k := log2fuel n n
    if k ≤ 23 then ((k + 127) <<< 23) + ((n - 2 ^ k) <<< (23 - k))
    else
      let sh := k - 23
      let q := n >>> sh
      let r := n - (q <<< sh)
      let half := 2 ^ (sh - 1)
      let q2 := if half < r ∨ (r = half ∧ q % 2 = 1) then q + 1 else q
      if q2 = 2 ^ 24 then (k + 1 + 127) <<< 23
      else ((k + 127) <<< 23) + (q2 - 2 ^ 23)

/-- IEEE-754 binary64 bit pattern of the Go numeric conversion `float64(n)`
of an unsigned integer `n < 2 ^ 64` (round to nearest, ties to even). -/
def f64bitsOfNat (n : Nat) : Nat :=
  if n = 0 then 0
  else
    let k := log2fuel n n
    if k ≤ 52 then ((k + 1023) <<< 52) + ((n - 2 ^ k) <<< (52 - k))
    else
      let sh := k - 52
      let q := n >>> sh
      let r := n - (q <<< sh)
      let half := 2 ^ (sh - 1)
      let q2 := if half < r ∨ (r = half ∧ q % 2 = 1) then q + 1 else q
      if q2 = 2 ^ 53 then (k + 1 + 1023) <<< 52
      else ((k + 1023) <<< 52) + (q2 - 2 ^ 52)

/- ## Decimal rendering (`fmt.Sprintf` verbs `%d`, `%0wd`) -/

/-- Fuel-driven most-significant-first decimal digits (ASCII codes). -/
def decDigitsAux : Nat → Nat → List Nat
  | 0, _ => []
  | fuel + 1, n => if n < 10 then [48 + n] else decDigitsAux fuel (n / 10) ++ [48 + n % 10]

/-- ASCII decimal rendering of a natural number, `fmt.Sprintf("%d", n)`. -/
def decDigits (n : Nat) : List Nat := decDigitsAux (n + 1) n

/-- Zero-padded decimal rendering, `fmt.Sprintf("%0wd", n)` for `n ≥ 0`:
pads to width `w` with leading zeros, never truncates. -/
def padZ (w n : Nat) : List Nat :=
  List.replicate (w - (decDigits n).length) 48 ++ decDigits n

/- ## Decimal scanning (`fmt.Sscanf` verbs `%d`, `%0wd`, literals) -/

/-- Decimal digit test on an ASCII code. -/
def isDigitB (c : Nat) : Bool := decide (48 ≤ c) && decide (c ≤ 57)

/-- Go scanning skips leading white space before every numeric verb; the
canonical strings involved only ever contain the space character. -/
def skipSpaces (s : List Nat) : List Nat := s.dropWhile (fun c => c == 32)

/-- Value of a most-significant-first ASCII digit list. -/
def digitsVal (ds : List Nat) : Nat := ds.foldl (fun a c => a * 10 + (c - 48)) 0

/-- `fmt.Sscanf` verb `%0wd`: skip spaces, then read at most `w` decimal
digits (at least one, else a scan error). -/
def scanNatW (w : Nat) (s : List Nat) : Option (Nat × List Nat) :=
  let s1 := skipSpaces s
  let ds := (s1.takeWhile isDigitB).take w
  if ds.length = 0 then none else some (digitsVal ds, s1.drop ds.length)

/-- Unbounded digit run (helper for `%d`). -/
def scanNatAll (s : List Nat) : Option (Nat × List Nat) :=
  let ds := s.takeWhile isDigitB
  if ds.length = 0 then none else some (digitsVal ds, s.drop ds.length)

/-- `fmt.Sscanf` verb `%d`: skip spaces, optional sign, maximal digit run. -/
def scanInt (s : List Nat) : Option (Int × List Nat) :=
  match skipSpaces s with
  | 45 :: rest => (scanNatAll rest).map (fun p => (-(p.1 : Int), p.2))
  | 43 :: rest => (scanNatAll rest).map (fun p => ((p.1 : Int), p.2))
  | s1 => (scanNatAll s1).map (fun p => ((p.1 : Int), p.2))

/-- A literal character in an `fmt.Sscanf` format string. -/
def expectChar (c : Nat) (s : List Nat) : Option (List Nat) :=
  match s with
  | [] => none
  | c2 :: rest => if c2 = c then some rest else none

/- ## Data model (`go.keploy.io/server/v2/pkg/models/mysql`) -/

/-- MySQL column wire-type tags (`mysql.FieldType`); `other c` stands for any
type code outside the set this codec dispatches on. -/
inductive FieldType where
  | tiny | short | long | longlong | year
  | float | double
  | string | varstring | varchar | blob | tinyBlob | mediumBlob | longBlob | json
  | date | newdate | timestamp | datetime | time
  | other (code : Nat)
deriving DecidableEq, Repr

/-- The fields of `mysql.ColumnDefinition41` that the row codec reads. -/
structure ColumnDefinition41 where
  Name : List Nat
  Type' : FieldType
  Flags : Nat
deriving DecidableEq, Repr

/-- `mysql.UNSIGNED_FLAG`. -/
def UNSIGNED_FLAG : Nat := 32

/-- Packet header: 24-bit little-endian payload length plus sequence id. -/
structure Header where
  PayloadLength : Nat
  SequenceID : Nat
deriving DecidableEq, Repr

/-- A decoded Go `interface{}` column value: the closed set of host
representations the codec produces or accepts.  `vNull` is the Go `nil`
interface value; floats carry their IEEE-754 bit pattern; strings (also the
temporal renderings, which Go stores as `string`) carry raw bytes. -/
inductive GoVal where
  | vNull
  | vInt8 (v : Int) | vUInt8 (v : Nat)
  | vInt16 (v : Int) | vUInt16 (v : Nat)
  | vInt32 (v : Int) | vUInt32 (v : Nat)
  | vInt64 (v : Int) | vUInt64 (v : Nat)
  | vFloat32 (bits : Nat) | vFloat64 (bits : Nat)
  | vString (s : List Nat)
deriving DecidableEq, Repr

/-- `mysql.ColumnEntry`. -/
structure ColumnEntry where
  Type' : FieldType
  Name : List Nat
  Value : GoVal
deriving DecidableEq, Repr

/-- `mysql.BinaryRow` (the fields the codec touches). -/
structure BinaryRow where
  Header : Header
  OkAfterRow : Bool
  RowNullBuffer : List Nat
  Values : List ColumnEntry
deriving DecidableEq, Repr

/-- Result of `readBinaryValue` / the `parseBinary*` helpers, Go's
`(interface{}, int, error)`: `ok v n` is `(v, n, nil)`, `err m n` is a
non-nil error returned together with consumed count `n`, `oob` is a Go
runtime panic (out-of-range index/slice). -/
inductive ReadValueResult where
  | oob
  | err (msg : String) (n : Nat)
  | ok (value : GoVal) (n : Nat)
deriving DecidableEq, Repr

/-- Result of `DecodeBinaryRow`, Go's `(*mysql.BinaryRow, int, error)`.  On
error the Go function always returns a `nil` row pointer, so the error
constructor carries only the diagnostic offset. -/
inductive DecodeRowResult where
  | oob
  | err (msg : String) (offset : Nat)
  | ok (row : BinaryRow) (offset : Nat)
deriving DecidableEq, Repr

/-- Result of `decodeLoop` (the decoder's per-column `for` loop). -/
inductive DecodeLoopResult where
  | oob
  | err (msg : String) (offset : Nat)
  | ok (values : List ColumnEntry) (offset : Nat)
deriving DecidableEq, Repr

/-- Result of `EncodeBinaryRow` / `encodeBinaryDateTime`, Go's
`([]byte, error)`: a `nil` byte slice accompanies every error. -/
inductive EncodeResult where
  | oob
  | err (msg : String)
  | ok (bytes : List Nat)
deriving DecidableEq, Repr

/- ## External helpers (`utils` package — not part of this repository slice) -/

/-- Modelled from the spec: `utils.ReadUint24` — 3-byte little-endian
unsigned integer (the packet header's payload length). -/
def ReadUint24 (b0 b1 b2 : Nat) : Nat := b0 + 256 * b1 + 65536 * b2

/-- Modelled from the spec: `utils.WriteUint24` — writes the low 24 bits of
the payload length, little-endian. -/
def WriteUint24 (n : Nat) : List Nat := [n % 256, n / 256 % 256, n / 65536 % 256]

/-- Modelled from the spec: `utils.ReadLengthEncodedString`, Go signature
`([]byte, bool, int, error)` — a length-encoded unsigned-integer prefix
(1 byte for values ≤ 250, else a marker byte `0xFC`/`0xFD`/`0xFE` followed by
2/3/8 little-endian bytes; `0xFB` is the NULL marker) and then that many raw
payload bytes; `n` is prefix length plus payload length. -/
def ReadLengthEncodedString (b : List Nat) : List Nat × Bool × Nat × Option String :=
  let payload := fun (len prefixLen : Nat) =>
    if prefixLen + len ≤ b.length then
      ((b.drop prefixLen).take len, false, prefixLen + len, none)
    else ([], false, 0, some "malformed length-encoded string")
  match b.get? 0 with
  | none => ([], false, 0, some "malformed length-encoded integer")
  | some b0 =>
    if b0 ≤ 250 then payload b0 1
    else if b0 = 251 then ([], true, 1, none)
    else if b0 = 252 then
      if 3 ≤ b.length then payload (leBytes ((b.drop 1).take 2)) 3
      else ([], false, 0, some "malformed length-encoded integer")
    else if b0 = 253 then
      if 4 ≤ b.length then payload (leBytes ((b.drop 1).take 3)) 4
      else ([], false, 0, some "malformed length-encoded integer")
    else if b0 = 254 then
      if 9 ≤ b.length then payload (leBytes ((b.drop 1).take 8)) 9
      else ([], false, 0, some "malformed length-encoded integer")
    else ([], false, 0, some "invalid length-encoded integer prefix")

/-- Modelled from the spec: `utils.WriteLengthEncodedString` — the
length-encoded unsigned-integer prefix for the byte length, then the raw
bytes. -/
def WriteLengthEncodedString (s : List Nat) : List Nat :=
  let l := s.length
  (if l ≤ 250 then [l]
   else if l < 2 ^ 16 then 252 :: natLE 2 l
   else if l < 2 ^ 24 then 253 :: natLE 3 l
   else 254 :: natLE 8 l) ++ s

/- ## Null bitmap -/

/-- `isNull(nullBitmap, index)`: tests absolute bit position `index + 2`.
`none` models the Go runtime panic when `bytePos` is out of range. -/
def isNull (nullBitmap : List Nat) (index : Nat) : Option Bool :=
  let bytePos := (index + 2) / 8
  let bitPos := (index + 2) % 8
  (nullBitmap.get? bytePos).map (fun b => b &&& (1 <<< bitPos) != 0)

/- ## Temporal value parsers (decode direction) -/

/-- `parseBinaryDate`: self-describing length byte then year/month/day,
rendered `fmt.Sprintf("%04d-%02d-%02d", ...)`.  No bounds check beyond the
emptiness test: reading `b[1:3]`, `b[3]`, `b[4]` panics when absent. -/
def parseBinaryDate (b : List Nat) : ReadValueResult :=
  match b with
  | [] => .ok .vNull 0
  | length :: _ =>
    if length = 0 then .ok .vNull 1
    else
      match b.get? 1, b.get? 2, b.get? 3, b.get? 4 with
      | some y0, some y1, some month, some day =>
        .ok (.vString (padZ 4 (leBytes [y0, y1]) ++ [45] ++ padZ 2 month ++ [45] ++ padZ 2 day))
          (length + 1)
      | _, _, _, _ => .oob

/-- `parseBinaryDateTime`: length byte then year/month/day/hour/minute/second
(and a 4-byte microsecond field when `length > 7`), rendered
`"%04d-%02d-%02d %02d:%02d:%02d"` with `".%06d"` appended in the long form. -/
def parseBinaryDateTime (b : List Nat) : ReadValueResult :=
  match b with
  | [] => .ok .vNull 0
  | length :: _ =>
    if length = 0 then .ok .vNull 1
    else
      match b.get? 1, b.get? 2, b.get? 3, b.get? 4, b.get? 5, b.get? 6, b.get? 7 with
      | some y0, some y1, some month, some day, some hour, some minute, some second =>
        let stem := padZ 4 (leBytes [y0, y1]) ++ [45] ++ padZ 2 month ++ [45] ++ padZ 2 day
          ++ [32] ++ padZ 2 hour ++ [58] ++ padZ 2 minute ++ [58] ++ padZ 2 second
        if 7 < length then
          match b.get? 8, b.get? 9, b.get? 10, b.get? 11 with
          | some m0, some m1, some m2, some m3 =>
            .ok (.vString (stem ++ [46] ++ padZ 6 (leBytes [m0, m1, m2, m3]))) (length + 1)
          | _, _, _, _ => .oob
        else .ok (.vString stem) (length + 1)
      | _, _, _, _, _, _, _ => .oob

/-- `parseBinaryTime`: length byte, sign byte, 4-byte LE day count,
hour/minute/second (and microseconds when `length > 8`), rendered
`"%d %02d:%02d:%02d.%06d"` — microseconds are always rendered on this
direction, as zero when absent — with a leading `-` when negative. -/
def parseBinaryTime (b : List Nat) : ReadValueResult :=
  match b with
  | [] => .ok .vNull 0
  | length :: _ =>
    if length = 0 then .ok .vNull 1
    else
      match b.get? 1, b.get? 2, b.get? 3, b.get? 4, b.get? 5, b.get? 6, b.get? 7, b.get? 8 with
      | some sign, some d0, some d1, some d2, some d3, some hours, some minutes, some seconds =>
        let render := fun (micro : Nat) =>
          let core := decDigits (leBytes [d0, d1, d2, d3]) ++ [32] ++ padZ 2 hours
            ++ [58] ++ padZ 2 minutes ++ [58] ++ padZ 2 seconds ++ [46] ++ padZ 6 micro
          if sign = 1 then 45 :: core else core
        if 8 < length then
          match b.get? 9, b.get? 10, b.get? 11, b.get? 12 with
          | some m0, some m1, some m2, some m3 =>
            .ok (.vString (render (leBytes [m0, m1, m2, m3]))) (length + 1)
          | _, _, _, _ => .oob
        else .ok (.vString (render 0)) (length + 1)
      | _, _, _, _, _, _, _, _ => .oob

/- ## Value codec, decode direction (`readBinaryValue`) -/

/-- `readBinaryValue(data, col)`: dispatch on the column's wire type (and the
unsigned flag for integer kinds).  The fixed-width kinds other than TINY
check that enough bytes remain and otherwise return a malformed-value error
with 0 consumed; TINY reads `data[0]` unchecked. -/
def readBinaryValue (data : List Nat) (col : ColumnDefinition41) : ReadValueResult :=
  let isUnsigned := col.Flags &&& UNSIGNED_FLAG != 0
  match col.Type' with
  | .long =>
    if data.length < 4 then .err "malformed FieldTypeLong value" 0
    else if isUnsigned then .ok (.vUInt32 (leBytes (data.take 4))) 4
    else .ok (.vInt32 (toSigned 32 (leBytes (data.take 4)))) 4
  | .string | .varstring | .varchar | .blob | .tinyBlob | .mediumBlob | .longBlob | .json =>
    match ReadLengthEncodedString data with
    | (value, _, n, none) => .ok (.vString value) n
    | (_, _, n, some e) => .err e n
  | .tiny =>
    match data.get? 0 with
    | none => .oob
    | some b => if isUnsigned then .ok (.vUInt8 b) 1 else .ok (.vInt8 (toSigned 8 b)) 1
  | .short | .year =>
    if data.length < 2 then .err "malformed FieldTypeShort value" 0
    else if isUnsigned then .ok (.vUInt16 (leBytes (data.take 2))) 2
    else .ok (.vInt16 (toSigned 16 (leBytes (data.take 2)))) 2
  | .longlong =>
    if data.length < 8 then .err "malformed FieldTypeLongLong value" 0
    else if isUnsigned then .ok (.vUInt64 (leBytes (data.take 8))) 8
    else .ok (.vInt64 (toSigned 64 (leBytes (data.take 8)))) 8
  | .float =>
    if data.length < 4 then .err "malformed FieldTypeFloat value" 0
    else .ok (.vFloat32 (f32bitsOfNat (leBytes (data.take 4)))) 4
  | .double =>
    if data.length < 8 then .err "malformed FieldTypeDouble value" 0
    else .ok (.vFloat64 (f64bitsOfNat (leBytes (data.take 8)))) 8
  | .date | .newdate => parseBinaryDate data
  | .timestamp | .datetime => parseBinaryDateTime data
  | .time => parseBinaryTime data
  | .other c => .err ("unsupported column type: " ++ toString c) 0

/- ## Row decoder (`DecodeBinaryRow`) -/

/-- The decoder's per-column loop: a null bit appends a null entry without
advancing the offset; otherwise `readBinaryValue` runs on the remaining
buffer and the offset advances by its consumed count; a value error aborts
with the current offset. -/
def decodeLoop (data nullBitmap : List Nat) (cols : List ColumnDefinition41)
    (i offset : Nat) (acc : List ColumnEntry) : DecodeLoopResult :=
  match cols with
  | [] => .ok acc offset
  | col :: rest =>
    match isNull nullBitmap i with
    | none => .oob
    | some true =>
      decodeLoop data nullBitmap rest (i + 1) offset
        (acc ++ [{ Type' := col.Type', Name := col.Name, Value := .vNull }])
    | some false =>
      match readBinaryValue (data.drop offset) col with
      | .oob => .oob
      | .err m _ => .err m offset
      | .ok v n =>
        decodeLoop data nullBitmap rest (i + 1) (offset + n)
          (acc ++ [{ Type' := col.Type', Name := col.Name, Value := v }])

/-- `DecodeBinaryRow(data, columns)`: 4-byte header, mandatory `0x00` row
marker (else a "malformed binary row packet" error with the current offset 4
and no row), a null bitmap of `(len(columns) + 7 + 2) / 8` bytes, then one
value per column. -/
def DecodeBinaryRow (data : List Nat) (columns : List ColumnDefinition41) : DecodeRowResult :=
  match data.get? 0, data.get? 1, data.get? 2, data.get? 3 with
  | some b0, some b1, some b2, some b3 =>
    match data.get? 4 with
    | none => .oob
    | some marker =>
      if marker ≠ 0 then .err "malformed binary row packet" 4
      else
        let nullBitmapLen := (columns.length + 7 + 2) / 8
        if 5 + nullBitmapLen ≤ data.length then
          let nullBitmap := (data.drop 5).take nullBitmapLen
          match decodeLoop data nullBitmap columns 0 (5 + nullBitmapLen) [] with
          | .oob => .oob
          | .err m off => .err m off
          | .ok values off =>
            .ok { Header := { PayloadLength := ReadUint24 b0 b1 b2, SequenceID := b3 },
                  OkAfterRow := true, RowNullBuffer := nullBitmap, Values := values } off
        else .oob
  | _, _, _, _ => .oob

/- ## Value codec, encode direction -/

/-- `encodeBinaryDateTime(fieldType, value)`: requires the canonical text
form the decoder produces and re-parses it with `fmt.Sscanf`.  Date emits the
4-byte form, datetime/timestamp the 7-byte form, time the 8-byte form — any
fractional-second text is not parsed and is silently dropped.  For a time
value Go reads `timeStr[0]` before anything else, so an empty string panics. -/
def encodeBinaryDateTime (fieldType : FieldType) (value : GoVal) : EncodeResult :=
  match fieldType with
  | .date | .newdate =>
    match value with
    | .vString dateStr =>
      (match scanNatW 4 dateStr with
       | none => .err "failed to parse date string"
       | some (year, s1) =>
         match expectChar 45 s1 with
         | none => .err "failed to parse date string"
         | some s2 =>
           match scanNatW 2 s2 with
           | none => .err "failed to parse date string"
           | some (month, s3) =>
             match expectChar 45 s3 with
             | none => .err "failed to parse date string"
             | some s4 =>
               match scanNatW 2 s4 with
               | none => .err "failed to parse date string"
               | some (day, _) =>
                 .ok ([4] ++ natLE 2 (year % 65536) ++ [month % 256, day % 256]))
    | _ => .err "invalid value type for date field"
  | .timestamp | .datetime =>
    match value with
    | .vString dateTimeStr =>
      (match scanNatW 4 dateTimeStr with
       | none => .err "failed to parse datetime string"
       | some (year, s1) =>
         match expectChar 45 s1 with
         | none => .err "failed to parse datetime string"
         | some s2 =>
           match scanNatW 2 s2 with
           | none => .err "failed to parse datetime string"
           | some (month, s3) =>
             match expectChar 45 s3 with
             | none => .err "failed to parse datetime string"
             | some s4 =>
               match scanNatW 2 s4 with
               | none => .err "failed to parse datetime string"
               | some (day, s5) =>
                 match scanNatW 2 (skipSpaces s5) with
                 | none => .err "failed to parse datetime string"
                 | some (hour, s6) =>
                   match expectChar 58 s6 with
                   | none => .err "failed to parse datetime string"
                   | some s7 =>
                     match scanNatW 2 s7 with
                     | none => .err "failed to parse datetime string"
                     | some (minute, s8) =>
                       match expectChar 58 s8 with
                       | none => .err "failed to parse datetime string"
                       | some s9 =>
                         match scanNatW 2 s9 with
                         | none => .err "failed to parse datetime string"
                         | some (second, _) =>
                           .ok ([7] ++ natLE 2 (year % 65536) ++
                             [month % 256, day % 256, hour % 256, minute % 256, second % 256]))
    | _ => .err "invalid value type for datetime field"
  | .time =>
    match value with
    | .vString timeStr =>
      (match timeStr.get? 0 with
       | none => .oob
       | some c0 =>
         let isNegative := c0 = 45
         let ts := if c0 = 45 then timeStr.drop 1 else timeStr
         match scanInt ts with
         | none => .err "failed to parse time string"
         | some (days, s1) =>
           match scanNatW 2 (skipSpaces s1) with
           | none => .err "failed to parse time string"
           | some (hours, s2) =>
             match expectChar 58 s2 with
             | none => .err "failed to parse time string"
             | some s3 =>
               match scanNatW 2 s3 with
               | none => .err "failed to parse time string"
               | some (minutes, s4) =>
                 match expectChar 58 s4 with
                 | none => .err "failed to parse time string"
                 | some s5 =>
                   match scanNatW 2 s5 with
                   | none => .err "failed to parse time string"
                   | some (seconds, _) =>
                     .ok ([8] ++ [if isNegative then 1 else 0] ++
                       natLE 4 ((days % ((2 : Int) ^ 32)).toNat) ++
                       [hours % 256, minutes % 256, seconds % 256]))
    | _ => .err "invalid value type for time field"
  | _ => .err "unsupported date/time field type"

/-- One column's wire bytes on the encode path: the body of the `switch` in
`EncodeBinaryRow`, dispatching on the stored entry's type tag and checking
the host representation of the stored value.  Integer kinds accept the signed
or the unsigned representation and write the same little-endian bytes;
floats write their bit pattern; `binary.Write`/`WriteByte` on a
`bytes.Buffer` cannot fail, so the only errors are type mismatches and
date/time parse failures. -/
def encodeOneValue (entry : ColumnEntry) : EncodeResult :=
  match entry.Type' with
  | .long =>
    match entry.Value with
    | .vInt32 v => .ok (intLE 4 v)
    | .vUInt32 v => .ok (intLE 4 (toSigned 32 v))
    | _ => .err "invalid value type for long field"
  | .string | .varstring | .varchar | .blob | .tinyBlob | .mediumBlob | .longBlob | .json =>
    match entry.Value with
    | .vString s => .ok (WriteLengthEncodedString s)
    | _ => .err "invalid value type for string field"
  | .tiny =>
    match entry.Value with
    | .vInt8 v => .ok (intLE 1 v)
    | .vUInt8 v => .ok (intLE 1 (toSigned 8 v))
    | _ => .err "invalid value type for tiny field"
  | .short | .year =>
    match entry.Value with
    | .vInt16 v => .ok (intLE 2 v)
    | .vUInt16 v => .ok (intLE 2 (toSigned 16 v))
    | _ => .err "invalid value type for short field"
  | .longlong =>
    match entry.Value with
    | .vInt64 v => .ok (intLE 8 v)
    | .vUInt64 v => .ok (intLE 8 (toSigned 64 v))
    | _ => .err "invalid value type for long long field"
  | .float =>
    match entry.Value with
    | .vFloat32 bits => .ok (natLE 4 bits)
    | _ => .err "invalid value type for float field"
  | .double =>
    match entry.Value with
    | .vFloat64 bits => .ok (natLE 8 bits)
    | _ => .err "invalid value type for double field"
  | .date | .newdate | .timestamp | .datetime | .time =>
    match encodeBinaryDateTime entry.Type' entry.Value with
    | .oob => .oob
    | .err m => .err ("failed to encode date/time value: " ++ m)
    | .ok bs => .ok bs
  | .other c => .err ("unsupported column type: " ++ toString c)

/-- The encoder's per-column loop: for each column index, a set null bit
emits nothing (and `row.Values[i]` is never read); otherwise `row.Values[i]`
is fetched (a Go panic when absent) and encoded; the first error aborts. -/
def encodeValues (row : BinaryRow) (cols : List ColumnDefinition41) (i : Nat) : EncodeResult :=
  match cols with
  | [] => .ok []
  | _ :: rest =>
    match isNull row.RowNullBuffer i with
    | none => .oob
    | some true => encodeValues row rest (i + 1)
    | some false =>
      match row.Values.get? i with
      | none => .oob
      | some entry =>
        match encodeOneValue entry with
        | .oob => .oob
        | .err m => .err m
        | .ok bs =>
          match encodeValues row rest (i + 1) with
          | .oob => .oob
          | .err m => .err m
          | .ok bs2 => .ok (bs ++ bs2)

/-- `EncodeBinaryRow(row, columns)`: 3-byte LE payload length, sequence id,
the `0x00` row marker, the row's stored null bitmap verbatim (never
recomputed from the values), then each non-null column's bytes in order. -/
def EncodeBinaryRow (row : BinaryRow) (columns : List ColumnDefinition41) : EncodeResult :=
  match encodeValues row columns 0 with
  | .oob => .oob
  | .err m => .err m
  | .ok body =>
    .ok (WriteUint24 row.Header.PayloadLength ++ [row.Header.SequenceID % 256] ++ [0] ++
      row.RowNullBuffer ++ body)

/- ## Invariants of the decode and encode loops (helper lemmas) -/

/-- Invariant of the decoder's per-column loop on success: the produced
entries extend the accumulator one per column, the final offset is the
initial offset plus a per-column list of consumed widths, and every column
whose null bit is set contributed width 0 and a `vNull` entry. -/
theorem decodeLoop_ok_inv (data bitmap : List Nat) (cols : List ColumnDefinition41) :
    ∀ (i off : Nat) (acc values : List ColumnEntry) (off' : Nat),
      decodeLoop data bitmap cols i off acc = .ok values off' →
      ∃ (ws : List Nat) (es : List ColumnEntry),
        values = acc ++ es ∧ es.length = cols.length ∧ ws.length = cols.length ∧
        off' = off + ws.sum ∧
        (∀ j c, cols.get? j = some c → isNull bitmap (i + j) = some true →
          ws.get? j = some 0 ∧
          es.get? j = some { Type' := c.Type', Name := c.Name, Value := .vNull }) := by
  induction cols with
  | nil =>
    intro i off acc values off' h
    simp only [decodeLoop, DecodeLoopResult.ok.injEq] at h
    exact ⟨[], [], by simp [h.1.symm], rfl, rfl, by simp [h.2.symm], by intro j c hc; simp at hc⟩
  | cons col rest ih =>
    intro i off acc values off' h
    rw [decodeLoop] at h
    cases hn : isNull bitmap i with
    | none => rw [hn] at h; exact absurd h (by simp)
    | some b =>
      cases b with
      | true =>
        rw [hn] at h
        simp only at h
        obtain ⟨ws, es, hv, hel, hwl, hoff, hspec⟩ := ih (i + 1) off _ values off' h
        refine ⟨0 :: ws, { Type' := col.Type', Name := col.Name, Value := .vNull } :: es,
          ?_, ?_, ?_, ?_, ?_⟩
        · rw [hv]; simp
        · simp [hel]
        · simp [hwl]
        · simpa using hoff
        · intro j c hc hnull
          cases j with
          | zero =>
            simp only [List.get?] at hc
            injection hc with hc
            subst hc
            exact ⟨rfl, rfl⟩
          | succ k =>
            simp only [List.get?] at hc
            have hnull2 : isNull bitmap (i + 1 + k) = some true := by
              rw [show i + 1 + k = i + (k + 1) from by omega]; exact hnull
            have := hspec k c hc hnull2
            simpa using this
      | false =>
        rw [hn] at h
        simp only at h
        cases hr : readBinaryValue (data.drop off) col with
        | oob => rw [hr] at h; exact absurd h (by simp)
        | err m n => rw [hr] at h; exact absurd h (by simp)
        | ok v n =>
          rw [hr] at h
          simp only at h
          obtain ⟨ws, es, hv, hel, hwl, hoff, hspec⟩ := ih (i + 1) (off + n) _ values off' h
          refine ⟨n :: ws, { Type' := col.Type', Name := col.Name, Value := v } :: es,
            ?_, ?_, ?_, ?_, ?_⟩
          · rw [hv]; simp
          · simp [hel]
          · simp [hwl]
          · rw [hoff]; simp; omega
          · intro j c hc hnull
            cases j with
            | zero =>
              rw [Nat.add_zero, hn] at hnull
              exact absurd hnull (by simp)
            | succ k =>
              simp only [List.get?] at hc
              have hnull2 : isNull bitmap (i + 1 + k) = some true := by
                rw [show i + 1 + k = i + (k + 1) from by omega]; exact hnull
              have := hspec k c hc hnull2
              simpa using this

/-- Invariant of the encoder's per-column loop on success: the output is the
concatenation of one byte chunk per column, and every column whose null bit
is set contributed the empty chunk. -/
theorem encodeValues_ok_inv (row : BinaryRow) (cols : List ColumnDefinition41) :
    ∀ (i : Nat) (out : List Nat),
      encodeValues row cols i = .ok out →
      ∃ chunks : List (List Nat), chunks.length = cols.length ∧ out = chunks.flatten ∧
        (∀ j, j < cols.length → isNull row.RowNullBuffer (i + j) = some true →
          chunks.get? j = some []) := by
  induction cols with
  | nil =>
    intro i out h
    simp only [encodeValues, EncodeResult.ok.injEq] at h
    exact ⟨[], rfl, by simp [h.symm], by intro j hj; simp at hj⟩
  | cons col rest ih =>
    intro i out h
    rw [encodeValues] at h
    cases hn : isNull row.RowNullBuffer i with
    | none => rw [hn] at h; exact absurd h (by simp)
    | some b =>
      cases b with
      | true =>
        rw [hn] at h
        simp only at h
        obtain ⟨chunks, hcl, hout, hspec⟩ := ih (i + 1) out h
        refine ⟨[] :: chunks, by simp [hcl], by simpa using hout, ?_⟩
        intro j hj hnull
        cases j with
        | zero => rfl
        | succ k =>
          have hnull2 : isNull row.RowNullBuffer (i + 1 + k) = some true := by
            rw [show i + 1 + k = i + (k + 1) from by omega]; exact hnull
          have := hspec k (by simpa using hj) hnull2
          simpa using this
      | false =>
        rw [hn] at h
        simp only at h
        cases hg : row.Values.get? i with
        | none => rw [hg] at h; exact absurd h (by simp)
        | some entry =>
          rw [hg] at h
          simp only at h
          cases he : encodeOneValue entry with
          | oob => rw [he] at h; exact absurd h (by simp)
          | err m => rw [he] at h; exact absurd h (by simp)
          | ok bs =>
            rw [he] at h
            simp only at h
            cases hrest : encodeValues row rest (i + 1) with
            | oob => rw [hrest] at h; exact absurd h (by simp)
            | err m => rw [hrest] at h; exact absurd h (by simp)
            | ok bs2 =>
              rw [hrest] at h
              simp only [EncodeResult.ok.injEq] at h
              obtain ⟨chunks, hcl, hout, hspec⟩ := ih (i + 1) bs2 hrest
              refine ⟨bs :: chunks, by simp [hcl], ?_, ?_⟩
              · rw [← h]; simp [hout]
              · intro j hj hnull
                cases j with
                | zero =>
                  rw [Nat.add_zero, hn] at hnull
                  exact absurd hnull (by simp)
                | succ k =>
                  have hnull2 : isNull row.RowNullBuffer (i + 1 + k) = some true := by
                    rw [show i + 1 + k = i + (k + 1) from by omega]; exact hnull
                  have := hspec k (by simpa using hj) hnull2
                  simpa using this

/-- Shape of every successful `DecodeBinaryRow`: the stored null bitmap is
exactly `(numColumns + 7 + 2) / 8` bytes, there is one entry per column, the
final offset is `5 + bitmapLen` plus per-column consumed widths, and null
columns contributed width 0 and a `vNull` entry. -/
theorem DecodeBinaryRow_ok_shape (data : List Nat) (cols : List ColumnDefinition41)
    (row : BinaryRow) (off : Nat) (h : DecodeBinaryRow data cols = .ok row off) :
    row.RowNullBuffer.length = (cols.length + 7 + 2) / 8 ∧
    row.Values.length = cols.length ∧
    ∃ ws : List Nat, ws.length = cols.length ∧
      off = 5 + (cols.length + 7 + 2) / 8 + ws.sum ∧
      (∀ j c, cols.get? j = some c → isNull row.RowNullBuffer j = some true →
        ws.get? j = some 0 ∧
        row.Values.get? j = some { Type' := c.Type', Name := c.Name, Value := .vNull }) := by
  simp only [DecodeBinaryRow] at h
  split at h
  all_goals try exact DecodeRowResult.noConfusion h
  split at h
  all_goals try exact DecodeRowResult.noConfusion h
  split at h
  all_goals try exact DecodeRowResult.noConfusion h
  split at h
  all_goals try exact DecodeRowResult.noConfusion h
  rename_i h5
  split at h
  all_goals try exact DecodeRowResult.noConfusion h
  rename_i values off0 hloop
  simp only [DecodeRowResult.ok.injEq] at h
  obtain ⟨hrow, hoff⟩ := h
  subst hrow
  obtain ⟨ws, es, hv, hel, hwl, hoff2, hspec⟩ :=
    decodeLoop_ok_inv data ((data.drop 5).take ((cols.length + 7 + 2) / 8)) cols
      0 (5 + (cols.length + 7 + 2) / 8) [] values off0 hloop
  subst hv
  refine ⟨?_, ?_, ws, hwl, ?_, ?_⟩
  · simp only [List.length_take, List.length_drop]
    omega
  · simpa using hel
  · omega
  · intro j c hc hnull
    have := hspec j c hc (by simpa using hnull)
    simpa using this

/-- Shape of every successful `EncodeBinaryRow`: a 4-byte header, the `0x00`
marker, the row's null bitmap verbatim, then one (possibly empty) chunk per
column, empty for every column whose null bit is set. -/
theorem EncodeBinaryRow_ok_shape (row : BinaryRow) (cols : List ColumnDefinition41)
    (out : List Nat) (h : EncodeBinaryRow row cols = .ok out) :
    ∃ chunks : List (List Nat), chunks.length = cols.length ∧
      out = WriteUint24 row.Header.PayloadLength ++ [row.Header.SequenceID % 256] ++ [0] ++
        row.RowNullBuffer ++ chunks.flatten ∧
      (∀ j, j < cols.length → isNull row.RowNullBuffer j = some true →
        chunks.get? j = some []) := by
  rw [EncodeBinaryRow] at h
  split at h
  all_goals try exact EncodeResult.noConfusion h
  rename_i body hbody
  simp only [EncodeResult.ok.injEq] at h
  obtain ⟨chunks, hcl, hout, hspec⟩ := encodeValues_ok_inv row cols 0 body hbody
  refine ⟨chunks, hcl, ?_, ?_⟩
  · rw [← h, hout]
  · intro j hj hnull
    exact hspec j hj (by simpa using hnull)

/- ## The claims -/

/-- A single FLOAT column (no flags). -/
def c1Cols : List ColumnDefinition41 := [{ Name := [102], Type' := .float, Flags := 0 }]

/-- A row holding the float `1.0` (IEEE-754 bits `0x3F800000`) in that
column, with a correct header and an all-zero null bitmap. -/
def c1Row : BinaryRow :=
  { Header := { PayloadLength := 6, SequenceID := 1 }, OkAfterRow := true,
    RowNullBuffer := [0],
    Values := [{ Type' := .float, Name := [102], Value := .vFloat32 1065353216 }] }

/-- Claim C1: `decodeRow(encodeRow(row, defs), defs) == row` for every
well-typed row, save for sub-second temporal precision.  Refuted: for the
single-FLOAT-column row holding `1.0` (bits `0x3F800000`), encoding emits
the bytes `[0x00, 0x00, 0x80, 0x3F]` and decoding them back yields the float
with bits `0x4E7E0000` (the value `1065353216.0`, the *numeric* conversion
of the little-endian integer) — a different row, with no sub-second
precision involved.  This is the float-decode slip of claim C2 surfacing in
the round trip. -/
theorem C1_float_column_breaks_roundtrip :
    EncodeBinaryRow c1Row c1Cols = .ok [6, 0, 0, 1, 0, 0, 0, 0, 128, 63]
  ∧ DecodeBinaryRow [6, 0, 0, 1, 0, 0, 0, 0, 128, 63] c1Cols =
      .ok { c1Row with
            Values := [{ Type' := .float, Name := [102], Value := .vFloat32 1316880384 }] } 10
  ∧ DecodeBinaryRow [6, 0, 0, 1, 0, 0, 0, 0, 128, 63] c1Cols ≠ .ok c1Row 10 :=
  ⟨by decide, by decide, by decide⟩

/-- Modelled from the spec: the FLOAT decode the specification describes —
take the 4-byte little-endian unsigned integer and reinterpret its bit
pattern as an IEEE-754 binary32 float (`math.Float32frombits` semantics). -/
def specFloatReinterpret (data : List Nat) : GoVal := .vFloat32 (leBytes (data.take 4))

/-- Claim C2: FLOAT/DOUBLE decode reinterprets the little-endian bit pattern
as a float.  Refuted: the source computes `float32(binary.LittleEndian.Uint32(..))`,
a numeric conversion.  On the wire bytes of `1.0` (`[0x00,0x00,0x80,0x3F]`,
integer `0x3F800000`) the code produces the float with bit pattern
`0x4E7E0000` (value `1065353216.0`), not the reinterpretation `0x3F800000`
(value `1.0`) the spec describes; the byte count 4 is as claimed. -/
theorem C2_float_decode_numeric_not_bit_reinterpretation :
    readBinaryValue [0, 0, 128, 63] { Name := [102], Type' := .float, Flags := 0 } =
      .ok (.vFloat32 1316880384) 4
  ∧ specFloatReinterpret [0, 0, 128, 63] = .vFloat32 1065353216
  ∧ (1316880384 : Nat) ≠ 1065353216 :=
  ⟨by decide, by decide, by decide⟩

/-- Claim C3, counterexample: the claim includes TINY (width 1) among the
fixed-width kinds that return a malformed-value error with 0 consumed when
the buffer is short, but the `FieldTypeTiny` case has no bounds check at
all: on an empty remainder it reads `data[0]` out of bounds (a Go runtime
panic, `oob` in this embedding), not the claimed error. -/
theorem C3_tiny_no_bounds_check_counterexample :
    readBinaryValue [] { Name := [], Type' := .tiny, Flags := 0 } = .oob
  ∧ ReadValueResult.oob ≠ .err "malformed FieldTypeTiny value" 0 :=
  ⟨by decide, by decide⟩

/-- Claim C3, amended: for SHORT/YEAR (width 2), LONG (4), LONGLONG (8),
FLOAT (4) and DOUBLE (8) — every fixed-width kind except TINY — a remainder
shorter than the width yields a malformed-value error naming the kind
(SHORT and YEAR share the `FieldTypeShort` message) with zero bytes
consumed and no out-of-bounds read, and the whole row decode aborts with
that error; in particular a LONG column over a 3-byte remainder fails with
`malformed FieldTypeLong value` at the column's offset. -/
theorem C3_fixed_width_bounds_checks (name : List Nat) (flags : Nat) (data : List Nat) :
    (data.length < 2 → readBinaryValue data { Name := name, Type' := .short, Flags := flags } =
        .err "malformed FieldTypeShort value" 0)
  ∧ (data.length < 2 → readBinaryValue data { Name := name, Type' := .year, Flags := flags } =
        .err "malformed FieldTypeShort value" 0)
  ∧ (data.length < 4 → readBinaryValue data { Name := name, Type' := .long, Flags := flags } =
        .err "malformed FieldTypeLong value" 0)
  ∧ (data.length < 8 → readBinaryValue data { Name := name, Type' := .longlong, Flags := flags } =
        .err "malformed FieldTypeLongLong value" 0)
  ∧ (data.length < 4 → readBinaryValue data { Name := name, Type' := .float, Flags := flags } =
        .err "malformed FieldTypeFloat value" 0)
  ∧ (data.length < 8 → readBinaryValue data { Name := name, Type' := .double, Flags := flags } =
        .err "malformed FieldTypeDouble value" 0)
  ∧ DecodeBinaryRow [4, 0, 0, 1, 0, 0, 170, 170, 170] [{ Name := [], Type' := .long, Flags := 0 }] =
      .err "malformed FieldTypeLong value" 6 := by
  refine ⟨fun h => ?_, fun h => ?_, fun h => ?_, fun h => ?_, fun h => ?_, fun h => ?_, by decide⟩
  all_goals simp [readBinaryValue, h]

/-- Witness for the amended claim C3, at the empty remainder. -/
theorem C3_fixed_width_bounds_checks_witness :
    readBinaryValue [] { Name := [], Type' := .short, Flags := 0 } =
      .err "malformed FieldTypeShort value" 0
  ∧ readBinaryValue [] { Name := [], Type' := .year, Flags := 0 } =
      .err "malformed FieldTypeShort value" 0
  ∧ readBinaryValue [] { Name := [], Type' := .long, Flags := 0 } =
      .err "malformed FieldTypeLong value" 0
  ∧ readBinaryValue [] { Name := [], Type' := .longlong, Flags := 0 } =
      .err "malformed FieldTypeLongLong value" 0
  ∧ readBinaryValue [] { Name := [], Type' := .float, Flags := 0 } =
      .err "malformed FieldTypeFloat value" 0
  ∧ readBinaryValue [] { Name := [], Type' := .double, Flags := 0 } =
      .err "malformed FieldTypeDouble value" 0 :=
  ⟨(C3_fixed_width_bounds_checks [] 0 []).1 (by decide),
   (C3_fixed_width_bounds_checks [] 0 []).2.1 (by decide),
   (C3_fixed_width_bounds_checks [] 0 []).2.2.1 (by decide),
   (C3_fixed_width_bounds_checks [] 0 []).2.2.2.1 (by decide),
   (C3_fixed_width_bounds_checks [] 0 []).2.2.2.2.1 (by decide),
   (C3_fixed_width_bounds_checks [] 0 []).2.2.2.2.2.1 (by decide)⟩

/-- Claim C4: `isNull(bitmap, i)` tests absolute bit position `i + 2`
(byte `(i + 2) / 8`, bit `(i + 2) % 8`); for a single-column result set the
bit tested is byte 0 bit 2, mask `0b00000100 = 4`; and the decoder's stored
null bitmap is exactly `(numColumns + 7 + 2) / 8` bytes long. -/
theorem C4_null_bitmap_indexing (bitmap : List Nat) (i b : Nat) (data : List Nat)
    (cols : List ColumnDefinition41) (row : BinaryRow) (off : Nat) :
    (bitmap.get? ((i + 2) / 8) = some b →
      isNull bitmap i = some ((b &&& (1 <<< ((i + 2) % 8))) != 0))
  ∧ (∀ b0 : Nat, isNull [b0] 0 = some ((b0 &&& 4) != 0))
  ∧ (DecodeBinaryRow data cols = .ok row off →
      row.RowNullBuffer.length = (cols.length + 7 + 2) / 8) := by
  refine ⟨fun hb => ?_, fun b0 => ?_,
    fun h => (DecodeBinaryRow_ok_shape data cols row off h).1⟩
  · simp only [isNull]
    rw [hb]
    rfl
  · simp [isNull]

/-- Witness for claim C4: bitmap `[0b100]` marks column 0 of a one-column
result set null, and a decoded one-column row stores a 1-byte bitmap. -/
theorem C4_null_bitmap_indexing_witness :
    isNull [4] 0 = some ((4 &&& (1 <<< ((0 + 2) % 8))) != 0)
  ∧ ({ Header := { PayloadLength := 2, SequenceID := 0 }, OkAfterRow := true,
       RowNullBuffer := [4],
       Values := [{ Type' := FieldType.tiny, Name := [], Value := GoVal.vNull }] } :
       BinaryRow).RowNullBuffer.length = (1 + 7 + 2) / 8 :=
  ⟨(C4_null_bitmap_indexing [4] 0 4 [] []
      { Header := { PayloadLength := 2, SequenceID := 0 }, OkAfterRow := true,
        RowNullBuffer := [4],
        Values := [{ Type' := FieldType.tiny, Name := [], Value := GoVal.vNull }] } 0).1
      (by decide),
   (C4_null_bitmap_indexing [4] 0 4 [2, 0, 0, 0, 0, 4]
      [{ Name := [], Type' := FieldType.tiny, Flags := 0 }]
      { Header := { PayloadLength := 2, SequenceID := 0 }, OkAfterRow := true,
        RowNullBuffer := [4],
        Values := [{ Type' := FieldType.tiny, Name := [], Value := GoVal.vNull }] } 6).2.2
      (by decide)⟩

/-- Claim C5: a column whose null bit is set decodes to a null-valued entry
contributing 0 to the cursor (the final offset is `5 + bitmapLen` plus
per-column widths, with width 0 at every null column), and on encode the
output is header ++ marker ++ the row's null bitmap verbatim ++ one chunk
per column with the empty chunk at every null column. -/
theorem C5_null_column_no_bytes (data : List Nat) (cols : List ColumnDefinition41)
    (row : BinaryRow) (off i : Nat) (e : ColumnEntry) (erow : BinaryRow) (out : List Nat) :
    (DecodeBinaryRow data cols = .ok row off → isNull row.RowNullBuffer i = some true →
       row.Values.get? i = some e → e.Value = .vNull)
  ∧ (DecodeBinaryRow data cols = .ok row off →
       ∃ ws : List Nat, ws.length = cols.length ∧
         off = 5 + (cols.length + 7 + 2) / 8 + ws.sum ∧
         (∀ j, j < cols.length → isNull row.RowNullBuffer j = some true →
           ws.get? j = some 0))
  ∧ (EncodeBinaryRow erow cols = .ok out →
       ∃ chunks : List (List Nat), chunks.length = cols.length ∧
         out = WriteUint24 erow.Header.PayloadLength ++ [erow.Header.SequenceID % 256] ++ [0] ++
           erow.RowNullBuffer ++ chunks.flatten ∧
         (∀ j, j < cols.length → isNull erow.RowNullBuffer j = some true →
           chunks.get? j = some [])) := by
  refine ⟨fun h hnull hv => ?_, fun h => ?_, fun h => EncodeBinaryRow_ok_shape erow cols out h⟩
  · obtain ⟨_, hlen, ws, _, _, hspec⟩ := DecodeBinaryRow_ok_shape data cols row off h
    obtain ⟨hlt, _⟩ := List.get?_eq_some.mp hv
    have hi : i < cols.length := hlen ▸ hlt
    have hc : cols.get? i = some (cols.get ⟨i, hi⟩) := List.get?_eq_get hi
    obtain ⟨_, he⟩ := hspec i _ hc hnull
    rw [hv] at he
    injection he with he
    rw [he]
  · obtain ⟨_, _, ws, hwl, hoff, hspec⟩ := DecodeBinaryRow_ok_shape data cols row off h
    refine ⟨ws, hwl, hoff, fun j hj hnull => ?_⟩
    have hc : cols.get? j = some (cols.get ⟨j, hj⟩) := List.get?_eq_get hj
    exact (hspec j _ hc hnull).1

/-- Witness for claim C5: a one-column result set whose only column is null
(bitmap `[0b100]`): the decoded entry is null with total offset 6, and the
encoded packet is exactly header ++ marker ++ bitmap with an empty chunk. -/
theorem C5_null_column_no_bytes_witness :
    ({ Type' := FieldType.tiny, Name := [], Value := GoVal.vNull } : ColumnEntry).Value = GoVal.vNull
  ∧ (∃ ws : List Nat, ws.length = 1 ∧ 6 = 5 + (1 + 7 + 2) / 8 + ws.sum ∧
      (∀ j, j < 1 → isNull [4] j = some true → ws.get? j = some 0))
  ∧ (∃ chunks : List (List Nat), chunks.length = 1 ∧
      [2, 0, 0, 0, 0, 4] = WriteUint24 2 ++ [0 % 256] ++ [0] ++ [4] ++ chunks.flatten ∧
      (∀ j, j < 1 → isNull [4] j = some true → chunks.get? j = some [])) :=
  ⟨(C5_null_column_no_bytes [2, 0, 0, 0, 0, 4]
      [{ Name := [], Type' := FieldType.tiny, Flags := 0 }]
      { Header := { PayloadLength := 2, SequenceID := 0 }, OkAfterRow := true,
        RowNullBuffer := [4],
        Values := [{ Type' := FieldType.tiny, Name := [], Value := GoVal.vNull }] } 6 0
      { Type' := FieldType.tiny, Name := [], Value := GoVal.vNull }
      { Header := { PayloadLength := 2, SequenceID := 0 }, OkAfterRow := true,
        RowNullBuffer := [4],
        Values := [{ Type' := FieldType.tiny, Name := [], Value := GoVal.vNull }] }
      [2, 0, 0, 0, 0, 4]).1 (by decide) (by decide) (by decide),
   (C5_null_column_no_bytes [2, 0, 0, 0, 0, 4]
      [{ Name := [], Type' := FieldType.tiny, Flags := 0 }]
      { Header := { PayloadLength := 2, SequenceID := 0 }, OkAfterRow := true,
        RowNullBuffer := [4],
        Values := [{ Type' := FieldType.tiny, Name := [], Value := GoVal.vNull }] } 6 0
      { Type' := FieldType.tiny, Name := [], Value := GoVal.vNull }
      { Header := { PayloadLength := 2, SequenceID := 0 }, OkAfterRow := true,
        RowNullBuffer := [4],
        Values := [{ Type' := FieldType.tiny, Name := [], Value := GoVal.vNull }] }
      [2, 0, 0, 0, 0, 4]).2.1 (by decide),
   (C5_null_column_no_bytes [2, 0, 0, 0, 0, 4]
      [{ Name := [], Type' := FieldType.tiny, Flags := 0 }]
      { Header := { PayloadLength := 2, SequenceID := 0 }, OkAfterRow := true,
        RowNullBuffer := [4],
        Values := [{ Type' := FieldType.tiny, Name := [], Value := GoVal.vNull }] } 6 0
      { Type' := FieldType.tiny, Name := [], Value := GoVal.vNull }
      { Header := { PayloadLength := 2, SequenceID := 0 }, OkAfterRow := true,
        RowNullBuffer := [4],
        Values := [{ Type' := FieldType.tiny, Name := [], Value := GoVal.vNull }] }
      [2, 0, 0, 0, 0, 4]).2.2 (by decide)⟩

/-- Claim C6: on every buffer of at least 5 bytes whose byte at offset 4 is
not `0x00`, the decoder fails with the "malformed binary row packet" error,
reports the cursor 4 as consumed, and (by the shape of `DecodeRowResult.err`,
which mirrors Go's unconditional `nil` row pointer on error) returns no row. -/
theorem C6_bad_row_marker (b0 b1 b2 b3 m : Nat) (rest : List Nat)
    (cols : List ColumnDefinition41) (hm : m ≠ 0) :
    DecodeBinaryRow (b0 :: b1 :: b2 :: b3 :: m :: rest) cols =
      .err "malformed binary row packet" 4 := by
  simp [DecodeBinaryRow, hm]

/-- Witness for claim C6: a 5-byte buffer with marker byte `0x01`. -/
theorem C6_bad_row_marker_witness :
    DecodeBinaryRow [0, 0, 0, 0, 1] [] = .err "malformed binary row packet" 4 :=
  C6_bad_row_marker 0 0 0 0 1 [] [] (by decide)

/-- Claim C7: encoding the decoded TIME value `"-3 02:15:30.000000"`
produces length byte 8, sign byte 1, little-endian day count 3, then
hour 2, minute 15, second 30 — the `.000000` microsecond text is dropped.
(The second conjunct shows the input string is exactly what the decoder
produces for that value's 8-byte wire form, tying the scenario together.) -/
theorem C7_time_encode_drops_microseconds :
    encodeBinaryDateTime .time
        (.vString [45, 51, 32, 48, 50, 58, 49, 53, 58, 51, 48, 46, 48, 48, 48, 48, 48, 48]) =
      .ok [8, 1, 3, 0, 0, 0, 2, 15, 30]
  ∧ parseBinaryTime [8, 1, 3, 0, 0, 0, 2, 15, 30] =
      .ok (.vString [45, 51, 32, 48, 50, 58, 49, 53, 58, 51, 48, 46, 48, 48, 48, 48, 48, 48]) 9 :=
  ⟨by decide, by decide⟩

/-- The single unsigned LONG column of claim C8. -/
def c8Cols : List ColumnDefinition41 := [{ Name := [99], Type' := .long, Flags := 32 }]

/-- The row of claim C8: the decoded unsigned value `4294967295`. -/
def c8Row : BinaryRow :=
  { Header := { PayloadLength := 6, SequenceID := 1 }, OkAfterRow := true,
    RowNullBuffer := [0],
    Values := [{ Type' := .long, Name := [99], Value := .vUInt32 4294967295 }] }

/-- Claim C8: an unsigned LONG column decodes `[0xFF,0xFF,0xFF,0xFF]` to the
unsigned value `4294967295` consuming 4 bytes, and re-encoding the decoded
row emits the identical 4 value bytes (full packet round trip shown). -/
theorem C8_unsigned_long_roundtrip :
    readBinaryValue [255, 255, 255, 255] { Name := [99], Type' := .long, Flags := 32 } =
      .ok (.vUInt32 4294967295) 4
  ∧ EncodeBinaryRow c8Row c8Cols = .ok [6, 0, 0, 1, 0, 0, 255, 255, 255, 255]
  ∧ DecodeBinaryRow [6, 0, 0, 1, 0, 0, 255, 255, 255, 255] c8Cols = .ok c8Row 10 :=
  ⟨by decide, by decide, by decide⟩

/-- Claim C9: each temporal parser on an empty remaining buffer returns a
nil value, 0 consumed and no error (for any flags/name), and a row decode
whose DATE column starts at the end of the buffer therefore succeeds with a
null-valued entry instead of reporting a malformed packet. -/
theorem C9_empty_temporal_nil (name : List Nat) (flags : Nat) :
    parseBinaryDate [] = .ok .vNull 0
  ∧ parseBinaryDateTime [] = .ok .vNull 0
  ∧ parseBinaryTime [] = .ok .vNull 0
  ∧ readBinaryValue [] { Name := name, Type' := .date, Flags := flags } = .ok .vNull 0
  ∧ readBinaryValue [] { Name := name, Type' := .newdate, Flags := flags } = .ok .vNull 0
  ∧ readBinaryValue [] { Name := name, Type' := .timestamp, Flags := flags } = .ok .vNull 0
  ∧ readBinaryValue [] { Name := name, Type' := .datetime, Flags := flags } = .ok .vNull 0
  ∧ readBinaryValue [] { Name := name, Type' := .time, Flags := flags } = .ok .vNull 0
  ∧ DecodeBinaryRow [1, 0, 0, 0, 0, 0] [{ Name := name, Type' := .date, Flags := flags }] =
      .ok { Header := { PayloadLength := 1, SequenceID := 0 }, OkAfterRow := true,
            RowNullBuffer := [0], Values := [{ Type' := .date, Name := name, Value := .vNull }] } 6 := by
  refine ⟨rfl, rfl, rfl, rfl, rfl, rfl, rfl, rfl, ?_⟩
  simp [DecodeBinaryRow, decodeLoop, readBinaryValue, parseBinaryDate, isNull, ReadUint24]

/-- Claim C10: the temporal parsers never compare the declared length byte
with the remaining buffer size — on inputs whose first byte is nonzero but
that are shorter than `length + 1` bytes (a DATE field of the single byte
`0x04`, a DATETIME field of `0x07`, a TIME field of `0x08`) they read past
the end of the buffer (the out-of-bounds branch is reached) instead of
returning a malformed-value error with zero bytes consumed. -/
theorem C10_temporal_oob_reachable :
    parseBinaryDate [4] = .oob
  ∧ parseBinaryDateTime [7] = .oob
  ∧ parseBinaryTime [8] = .oob
  ∧ readBinaryValue [4] { Name := [], Type' := .date, Flags := 0 } = .oob :=
  ⟨by decide, by decide, by decide, by decide⟩
